import Mathlib

/-!
Verification of the cf-daily-bot Discord bot against its specification.

The definitions below are a shallow embedding of the bot's handlers
(`formatUptime`, the leaderboard rendering loops, the `check` flow, the
login-confirmation button flow, `hasSolvedProblem`, and the
`setdailyproblem` handler).  External I/O (Discord replies, the MongoDB
store, HTTP calls to the Codeforces judge) is modelled by passing the
fetched data in as explicit arguments and returning the resulting state
and reply variant.
-/

/-- Embeds `formatUptime` (src/unnamed/part_002, lines 23-31): split a
number of seconds into days/hours/minutes/seconds and render
`"{d}d, {h}h, {m}m, {s}s"`.  The JS function takes a float; on the
nonnegative integers reachable in the claims, `Math.floor` and `%`
coincide with `Nat` division and modulus. -/
def formatUptime (seconds : Nat) : String :=
  let days := seconds / 86400
  let s1 := seconds % 86400
  let hours := s1 / 3600
  let s2 := s1 % 3600
  let minutes := s2 / 60
  let s3 := s2 % 60
  toString days ++ "d, " ++ toString hours ++ "h, " ++ toString minutes ++ "m, "
    ++ toString s3 ++ "s"

/-- One entry of `server.members` (src/src/models/serverSchema.ts) after
`.populate("members.user")`: `user` is the referenced user record's
platform id when the reference resolved, `none` otherwise; `points` is a
JS number (an integer in every reachable state); `lastSubmitted` is a
string or `null`. -/
structure MemberEntry where
  user : Option String
  points : Int
  lastSubmitted : Option String
deriving DecidableEq, Repr

/-- One rendered leaderboard row: the rank assigned by the rendering
loop, the mentioned user id, and the points displayed. -/
structure Row where
  rank : Nat
  uid : String
  points : Int
deriving DecidableEq, Repr

/-- The rank-assignment loop shared by `updateLeaderboard` (lines
185-197) and the `leaderboard` handler (lines 673-685), returning the
rendered rows as structured data.  `i` is the loop index, `currentRank`
and `lastPoints` the two mutable locals (`currentRank = 0`,
`lastPoints = -1` initially); a member whose `user` reference did not
resolve is skipped but still advances `i`. -/
def lbRowsAux : List MemberEntry → Nat → Nat → Int → List Row
  | [], _, _, _ => []
  | m :: rest, i, currentRank, lastPoints =>
    match m.user with
    | some uid =>
      if m.points ≠ lastPoints then
        ⟨i + 1, uid, m.points⟩ :: lbRowsAux rest (i + 1) (i + 1) m.points
      else
        ⟨currentRank, uid, m.points⟩ :: lbRowsAux rest (i + 1) currentRank lastPoints
    | none => lbRowsAux rest (i + 1) currentRank lastPoints

/-- Rows rendered for a (sorted) member list, with the loop's initial
state `i = 0`, `currentRank = 0`, `lastPoints = -1`. -/
def lbRows (members : List MemberEntry) : List Row :=
  lbRowsAux members 0 0 (-1)

/-- Text built by the rendering loop inside `updateLeaderboard`
(src/unnamed/part_002, lines 185-197).  Each rendered line is
`"{rank}. <@{id}> - {points} point(s)\n"`; `points || 0` in the source
is the identity on integers. -/
def updateLeaderboardTextAux : List MemberEntry → Nat → Nat → Int → String
  | [], _, _, _ => ""
  | m :: rest, i, currentRank, lastPoints =>
    match m.user with
    | some uid =>
      if m.points ≠ lastPoints then
        toString (i + 1) ++ ". <@" ++ uid ++ "> - " ++ toString m.points ++ " point(s)\n"
          ++ updateLeaderboardTextAux rest (i + 1) (i + 1) m.points
      else
        toString currentRank ++ ". <@" ++ uid ++ "> - " ++ toString m.points
          ++ " point(s)\n" ++ updateLeaderboardTextAux rest (i + 1) currentRank lastPoints
    | none => updateLeaderboardTextAux rest (i + 1) currentRank lastPoints

/-- Full leaderboard text of `updateLeaderboard`, header included. -/
def updateLeaderboardText (members : List MemberEntry) : String :=
  "**Leaderboard for Daily Problem**\n\n" ++ updateLeaderboardTextAux members 0 0 (-1)

/-- Text built by the duplicated rendering loop inside the
`/leaderboard` command handler (src/unnamed/part_002, lines 673-685),
embedded separately because the source duplicates the code. -/
def leaderboardCmdTextAux : List MemberEntry → Nat → Nat → Int → String
  | [], _, _, _ => ""
  | m :: rest, i, currentRank, lastPoints =>
    match m.user with
    | some uid =>
      if m.points ≠ lastPoints then
        toString (i + 1) ++ ". <@" ++ uid ++ "> - " ++ toString m.points ++ " point(s)\n"
          ++ leaderboardCmdTextAux rest (i + 1) (i + 1) m.points
      else
        toString currentRank ++ ". <@" ++ uid ++ "> - " ++ toString m.points
          ++ " point(s)\n" ++ leaderboardCmdTextAux rest (i + 1) currentRank lastPoints
    | none => leaderboardCmdTextAux rest (i + 1) currentRank lastPoints

/-- Full leaderboard text of the `/leaderboard` handler. -/
def leaderboardCmdText (members : List MemberEntry) : String :=
  "**Leaderboard for Daily Problem**\n\n" ++ leaderboardCmdTextAux members 0 0 (-1)

/-- Number of rows among `pre` displaying strictly more than `p` points. -/
def rowHigherCount (pre : List Row) (p : Int) : Nat :=
  List.countP (fun q => decide (p < q.points)) pre

/-- Competition-ranking checker: every row's rank must equal one plus
the number of earlier rows (those in `pre`, then the ones before it in
the second list) with strictly higher points. -/
def ranksOkFrom (pre : List Row) : List Row → Bool
  | [] => true
  | row :: rest =>
      (row.rank == 1 + rowHigherCount pre row.points) && ranksOkFrom (pre ++ [row]) rest

/-- Proof-side reformulation of `ranksOkFrom` carrying only the counting
function of the already-seen rows. -/
def ranksOkC (c : Int → Nat) : List Row → Bool
  | [] => true
  | row :: rest =>
      (row.rank == 1 + c row.points)
        && ranksOkC (fun q => c q + if q < row.points then 1 else 0) rest

theorem ranksOkFrom_eq_ranksOkC (rows : List Row) :
    ∀ pre : List Row, ranksOkFrom pre rows = ranksOkC (rowHigherCount pre) rows := by
  induction rows with
  | nil => intro pre; rfl
  | cons row rest ih =>
    intro pre
    simp only [ranksOkFrom, ranksOkC]
    have hc : (fun q => rowHigherCount pre q + if q < row.points then 1 else 0)
        = rowHigherCount (pre ++ [row]) := by
      funext q
      simp [rowHigherCount, List.countP_append, List.countP_cons]
    rw [ih (pre ++ [row]), hc]

theorem lbRowsAux_ranksOkC (ms : List MemberEntry) :
    ∀ (c : Int → Nat) (i r : Nat) (lp : Int),
    (∀ m ∈ ms, (m.user).isSome = true) →
    (∀ m ∈ ms, 0 ≤ m.points) →
    List.Pairwise (fun a b => b.points ≤ a.points) ms →
    (lp = -1 → i = 0 ∧ ∀ q, c q = 0) →
    (lp ≠ -1 → (∀ m ∈ ms, m.points ≤ lp) ∧ r = 1 + c lp ∧ ∀ q, q < lp → c q = i) →
    ranksOkC c (lbRowsAux ms i r lp) = true := by
  induction ms with
  | nil => intro c i r lp _ _ _ _ _; rfl
  | cons m rest ih =>
    intro c i r lp hres hpos hsort hinit hrun
    have hm : (m.user).isSome = true := hres m (List.mem_cons_self _ _)
    have hp0 : 0 ≤ m.points := hpos m (List.mem_cons_self _ _)
    obtain ⟨uid, hu⟩ := Option.isSome_iff_exists.mp hm
    have hdom : ∀ x ∈ rest, x.points ≤ m.points := by
      intro x hx
      exact (List.pairwise_cons.mp hsort).1 x hx
    have hres' : ∀ x ∈ rest, (x.user).isSome = true := fun x hx =>
      hres x (List.mem_cons_of_mem _ hx)
    have hpos' : ∀ x ∈ rest, 0 ≤ x.points := fun x hx =>
      hpos x (List.mem_cons_of_mem _ hx)
    have hsort' : List.Pairwise (fun a b => b.points ≤ a.points) rest :=
      (List.pairwise_cons.mp hsort).2
    by_cases hpl : m.points = lp
    · -- same points as the previous rendered member: rank stays `r`
      have hlp : lp ≠ -1 := by
        intro h; rw [h] at hpl; omega
      obtain ⟨hle, hr, hlt⟩ := hrun hlp
      simp only [lbRowsAux, hu]
      rw [if_neg (by simp [hpl])]
      simp only [ranksOkC, Bool.and_eq_true, beq_iff_eq]
      refine ⟨by rw [hr, hpl], ?_⟩
      refine ih _ (i + 1) r lp hres' hpos' hsort' (fun h => absurd h hlp) ?_
      intro _
      refine ⟨fun x hx => hdom x hx |>.trans (le_of_eq hpl), ?_, ?_⟩
      · rw [hr]; congr 1; rw [← hpl]; simp
      · intro q hq
        have : c q = i := hlt q hq
        have hqp : q < m.points := by omega
        simp [this, hqp]
    · -- point value changed: rank becomes `i + 1`
      have hcp : c m.points = i := by
        by_cases hlp : lp = -1
        · obtain ⟨hi0, hc0⟩ := hinit hlp
          rw [hc0, hi0]
        · obtain ⟨hle, hr, hlt⟩ := hrun hlp
          have : m.points < lp :=
            lt_of_le_of_ne (hle m (List.mem_cons_self _ _)) hpl
          exact hlt _ this
      simp only [lbRowsAux, hu]
      rw [if_pos (by simpa using hpl)]
      simp only [ranksOkC, Bool.and_eq_true, beq_iff_eq]
      refine ⟨by rw [hcp]; omega, ?_⟩
      refine ih _ (i + 1) (i + 1) m.points hres' hpos' hsort' (fun h => by omega) ?_
      intro _
      refine ⟨hdom, ?_, ?_⟩
      · simp [hcp]; omega
      · intro q hq
        have hcq : c q = i := by
          by_cases hlp : lp = -1
          · obtain ⟨hi0, hc0⟩ := hinit hlp
            rw [hc0, hi0]
          · obtain ⟨hle, hr, hlt⟩ := hrun hlp
            have : m.points ≤ lp := hle m (List.mem_cons_self _ _)
            exact hlt q (by omega)
        simp [hcq, hq]

/-- C9: the uptime formatter maps an input of 90061 seconds to the exact
string "1d, 1h, 1m, 1s", following the format "{d}d, {h}h, {m}m, {s}s". -/
theorem formatUptime_90061 : formatUptime 90061 = "1d, 1h, 1m, 1s" := by decide

/-- C6: rendering a leaderboard for a member list with points
[10, 10, 5] (all user references resolved) assigns ranks [1, 1, 3], not
[1, 1, 2] and not [1, 2, 3]. -/
theorem leaderboard_tie_ranks :
    (lbRows [⟨some "a", 10, none⟩, ⟨some "b", 10, none⟩, ⟨some "c", 5, none⟩]).map Row.rank
        = [1, 1, 3]
    ∧ (lbRows [⟨some "a", 10, none⟩, ⟨some "b", 10, none⟩, ⟨some "c", 5, none⟩]).map Row.rank
        ≠ [1, 1, 2]
    ∧ (lbRows [⟨some "a", 10, none⟩, ⟨some "b", 10, none⟩, ⟨some "c", 5, none⟩]).map Row.rank
        ≠ [1, 2, 3] := by
  decide

/-- C2 (counterexample): the rendering loop computes the rank from the
absolute loop index, which counts skipped members too.  In the sorted
list `[unresolved with 10 points, "b" with 5 points]` the single
rendered member "b" receives rank 2, though no rendered member with
higher points precedes it (without the skipped entry it receives rank
1), so the rank of a rendered member does depend on how many skipped
members precede it. -/
theorem leaderboard_rank_skip_cex :
    lbRows [⟨none, 10, none⟩, ⟨some "b", 5, none⟩] = [⟨2, "b", 5⟩]
    ∧ lbRows [⟨some "b", 5, none⟩] = [⟨1, "b", 5⟩]
    ∧ ranksOkFrom [] (lbRows [⟨none, 10, none⟩, ⟨some "b", 5, none⟩]) = false := by
  decide

/-- C2 (amended): for a member list sorted descending by points with
nonnegative points in which every member's user reference resolved, both
rendering loops assign each rendered member a rank equal to 1 plus the
number of already-ranked members with strictly higher points
(`ranksOkFrom [] rows` checks exactly that).  When a member is skipped
as unresolved, however, it still advances the index from which the next
rank is computed, so later ranks shift (see the counterexample). -/
theorem leaderboard_rank_spec (ms : List MemberEntry)
    (hres : ∀ m ∈ ms, (m.user).isSome = true)
    (hpos : ∀ m ∈ ms, 0 ≤ m.points)
    (hsort : List.Pairwise (fun a b => b.points ≤ a.points) ms) :
    ranksOkFrom [] (lbRows ms) = true := by
  rw [ranksOkFrom_eq_ranksOkC]
  have h0 : rowHigherCount [] = fun _ => 0 := by
    funext q; rfl
  rw [h0]
  exact lbRowsAux_ranksOkC ms _ 0 0 (-1) hres hpos hsort
    (fun _ => ⟨rfl, fun _ => rfl⟩) (fun h => absurd rfl h)

theorem leaderboard_rank_spec_spot :
    ranksOkFrom []
      (lbRows [⟨some "a", 10, none⟩, ⟨some "b", 10, none⟩, ⟨some "c", 5, none⟩]) = true :=
  leaderboard_rank_spec
    [⟨some "a", 10, none⟩, ⟨some "b", 10, none⟩, ⟨some "c", 5, none⟩]
    (by decide) (by decide) (by decide)

theorem lbTextAux_eq (ms : List MemberEntry) :
    ∀ (i cr : Nat) (lp : Int),
      updateLeaderboardTextAux ms i cr lp = leaderboardCmdTextAux ms i cr lp := by
  induction ms with
  | nil => intro i cr lp; rfl
  | cons m rest ih =>
    intro i cr lp
    simp only [updateLeaderboardTextAux, leaderboardCmdTextAux]
    cases m.user with
    | none => exact ih _ _ _
    | some uid =>
      dsimp only
      by_cases h : m.points = lp
      · rw [if_neg (by simp [h]), if_neg (by simp [h]), ih]
      · rw [if_pos (by simpa using h), if_pos (by simpa using h), ih]

/-- C10: for every member list (in particular every identical sorted
list with resolved user references), the leaderboard text built by the
`/leaderboard` command handler is character-for-character equal to the
text built by `updateLeaderboard`: the two duplicated rendering loops
are equivalent. -/
theorem leaderboard_duplicate_render_equiv (ms : List MemberEntry) :
    updateLeaderboardText ms = leaderboardCmdText ms := by
  simp only [updateLeaderboardText, leaderboardCmdText]
  rw [lbTextAux_eq]

/-- Splits a character list at every occurrence of `sep`, following the
semantics of JavaScript `String.prototype.split` with a one-character
separator (the result is never empty; an empty input yields `[[]]`). -/
def splitOnChar (sep : Char) : List Char → List (List Char)
  | [] => [[]]
  | c :: rest =>
    let r := splitOnChar sep rest
    if c = sep then [] :: r
    else
      match r with
      | [] => [[c]]
      | g :: gs => (c :: g) :: gs

/-- JavaScript `s.split(sep)` for a one-character separator. -/
def jsSplit (s : String) (sep : Char) : List String :=
  (splitOnChar sep s.data).map fun l => String.mk l

/-- Digit run to its decimal value. -/
def digitsToNat (ds : List Char) : Nat :=
  ds.foldl (fun a c => a * 10 + (c.toNat - 48)) 0

/-- Model of JavaScript `parseInt(s, 10)`: skip leading whitespace, read
an optional sign and then the maximal run of leading decimal digits;
`none` models the `NaN` result when no digit is found. -/
def parseIntJs (s : String) : Option Int :=
  let cs := s.data.dropWhile fun c => c = ' ' ∨ c = '\t' ∨ c = '\n' ∨ c = '\r'
  let signAndRest : Bool × List Char :=
    match cs with
    | '-' :: rest => (true, rest)
    | '+' :: rest => (false, rest)
    | _ => (false, cs)
  let ds := signAndRest.2.takeWhile Char.isDigit
  if ds.isEmpty then none
  else if signAndRest.1 then some (-(digitsToNat ds : Int))
  else some (digitsToNat ds : Int)

/-- Reply variants of the `check` handler that matter to the claims. -/
inductive CheckReply
  | errorChecking
  | alreadySubmitted
  | congrats
  | keepTrying
deriving DecidableEq, Repr

/-- The predicate of `server.members.find((m) => m.user && m.user.id
=== user.id)` (src/unnamed/part_002, line 439). -/
def memberMatches (uid : String) (m : MemberEntry) : Bool :=
  m.user == some uid

/-- `server.members.find(...)` from the `check` handler. -/
def findMember (members : List MemberEntry) (uid : String) : Option MemberEntry :=
  members.find? (memberMatches uid)

/-- In-place mutation of the array element returned by `find`: replace
the first entry satisfying `p` by its image under `f`. -/
def updateFirst (p : MemberEntry → Bool) (f : MemberEntry → MemberEntry) :
    List MemberEntry → List MemberEntry
  | [] => []
  | m :: rest => if p m then f m :: rest else m :: updateFirst p f rest

/-- State transition of the `check` handler once `solved` is known
(src/unnamed/part_002, lines 439-458): short-circuit when the member
already submitted for the current daily problem; otherwise push a new
member entry (absent case) or increment the found entry's points and
stamp `lastSubmitted` (present case).  The pushed `user` field stores
the caller's user reference, which resolves to the caller's id. -/
def checkCore (members : List MemberEntry) (uid daily : String) (solved : Bool) :
    List MemberEntry × CheckReply :=
  match findMember members uid with
  | some member =>
    if member.lastSubmitted = some daily then
      (members, CheckReply.alreadySubmitted)
    else
      (updateFirst (memberMatches uid)
        (fun m => { m with points := m.points + 1, lastSubmitted := some daily }) members,
       if solved then CheckReply.congrats else CheckReply.keepTrying)
  | none =>
    (members ++ [{ user := some uid, points := if solved then 1 else 0,
                   lastSubmitted := if solved then some daily else none }],
     if solved then CheckReply.congrats else CheckReply.keepTrying)

/-- A submission as returned by the judge's `user.status` endpoint:
the fields the bot reads. -/
structure CFProblem where
  contestId : Int
  index : String
deriving DecidableEq, Repr

structure CFSubmission where
  problem : CFProblem
  verdict : String
deriving DecidableEq, Repr

/-- A parsed `user.status` response body: the status discriminator and
the submission list. -/
structure CFStatusResponse where
  status : String
  result : List CFSubmission
deriving DecidableEq, Repr

/-- Embeds `hasSolvedProblem` (src/unnamed/part_002, lines 282-307).
`resp = none` models a failed HTTP request (the `catch` branch);
`Except.error` models the `throw` on a malformed `problemId`.  A
non-`"OK"` status and the catch branch both yield `Except.ok none`,
the JS `null`. -/
def hasSolvedProblem (problemId : String) (resp : Option CFStatusResponse) :
    Except String (Option Bool) :=
  let parts := jsSplit problemId '/'
  let contestIdStr := parts.headD ""
  let indexOpt := parts[1]?
  match parseIntJs contestIdStr, indexOpt with
  | some contestId, some index =>
    if index = "" then
      Except.error "Invalid problemId format. Expected format contestId/index."
    else
      match resp with
      | none => Except.ok none
      | some r =>
        if r.status = "OK" then
          Except.ok (some (r.result.any fun sub =>
            sub.problem.contestId == contestId && sub.problem.index == index
              && sub.verdict == "OK"))
        else Except.ok none
  | _, _ => Except.error "Invalid problemId format. Expected format contestId/index."

/-- The `check` handler from the `solved` computation on: feeds the
fetched judge response through `hasSolvedProblem`, replies with an error
on `null` (leaving the record untouched), and otherwise runs the member
update of `checkCore`. -/
def checkHandler (members : List MemberEntry) (uid daily : String)
    (resp : Option CFStatusResponse) : Except String (List MemberEntry × CheckReply) :=
  match hasSolvedProblem daily resp with
  | Except.error e => Except.error e
  | Except.ok none => Except.ok (members, CheckReply.errorChecking)
  | Except.ok (some solved) => Except.ok (checkCore members uid daily solved)

theorem find?_updateFirst (p : MemberEntry → Bool) (f : MemberEntry → MemberEntry)
    (hf : ∀ m, p m = true → p (f m) = true) :
    ∀ ms : List MemberEntry,
      List.find? p (updateFirst p f ms) = (List.find? p ms).map f := by
  intro ms
  induction ms with
  | nil => rfl
  | cons m rest ih =>
    by_cases h : p m = true
    · rw [updateFirst, if_pos h, List.find?_cons_of_pos _ (hf m h),
        List.find?_cons_of_pos _ h]
      rfl
    · have h' : p m = false := by
        cases hpm : p m
        · rfl
        · exact absurd hpm h
      rw [updateFirst, if_neg (by simp [h']), List.find?_cons_of_neg _ (by simp [h']),
        List.find?_cons_of_neg _ (by simp [h']), ih]

theorem find?_append_of_none (p : MemberEntry → Bool) (l1 l2 : List MemberEntry)
    (h : l1.find? p = none) : (l1 ++ l2).find? p = l2.find? p := by
  induction l1 with
  | nil => rfl
  | cons m rest ih =>
    have h' : p m = false := by
      cases hpm : p m
      · rfl
      · rw [List.find?_cons_of_pos _ hpm] at h; exact Option.noConfusion h
    rw [List.find?_cons_of_neg _ (by simp [h'])] at h
    rw [List.cons_append, List.find?_cons_of_neg _ (by simp [h']), ih h]

theorem checkCore_absent (members : List MemberEntry) (uid daily : String)
    (solved : Bool) (h : findMember members uid = none) :
    (checkCore members uid daily solved).1
      = members ++ [{ user := some uid, points := if solved then 1 else 0,
                      lastSubmitted := if solved then some daily else none }] := by
  simp [checkCore, h]

theorem checkCore_present_find (members : List MemberEntry) (uid daily : String)
    (solved : Bool) (m : MemberEntry) (hm : findMember members uid = some m)
    (hne : m.lastSubmitted ≠ some daily) :
    findMember (checkCore members uid daily solved).1 uid
      = some { m with points := m.points + 1, lastSubmitted := some daily } := by
  have hf : ∀ x, memberMatches uid x = true →
      memberMatches uid ({ x with points := x.points + 1, lastSubmitted := some daily } : MemberEntry) = true := by
    intro x hx
    simpa [memberMatches] using hx
  simp only [checkCore, hm, if_neg hne]
  show findMember (updateFirst (memberMatches uid) _ members) uid = _
  rw [findMember, find?_updateFirst _ _ hf, ← findMember, hm]
  rfl

/-- C3: in the check flow, an absent member entry is inserted with
points `solved ? 1 : 0` and lastSubmitted `solved ? daily : null`; a
present entry whose lastSubmitted differs from the daily problem id gets
its points incremented by exactly 1 and its lastSubmitted set to the
daily problem id, for both values of `solved`. -/
theorem check_insert_and_update (members : List MemberEntry) (uid daily : String)
    (solved : Bool) :
    (findMember members uid = none →
      (checkCore members uid daily solved).1
        = members ++ [{ user := some uid, points := if solved then 1 else 0,
                        lastSubmitted := if solved then some daily else none }]) ∧
    (∀ m, findMember members uid = some m → m.lastSubmitted ≠ some daily →
      findMember (checkCore members uid daily solved).1 uid
        = some { m with points := m.points + 1, lastSubmitted := some daily }) :=
  ⟨checkCore_absent members uid daily solved,
   fun m hm hne => checkCore_present_find members uid daily solved m hm hne⟩

theorem check_insert_and_update_spot :
    (checkCore [] "u1" "1500/A" true).1
        = [{ user := some "u1", points := 1, lastSubmitted := some "1500/A" }]
    ∧ findMember
        (checkCore [{ user := some "u1", points := 3, lastSubmitted := none }]
          "u1" "1500/A" false).1 "u1"
        = some { user := some "u1", points := 4, lastSubmitted := some "1500/A" } :=
  ⟨(check_insert_and_update [] "u1" "1500/A" true).1 (by decide),
   (check_insert_and_update [{ user := some "u1", points := 3, lastSubmitted := none }]
      "u1" "1500/A" false).2
      { user := some "u1", points := 3, lastSubmitted := none } (by decide) (by decide)⟩

theorem checkCore_already (members : List MemberEntry) (uid daily : String)
    (s : Bool) (m : MemberEntry) (hm : findMember members uid = some m)
    (hlast : m.lastSubmitted = some daily) :
    checkCore members uid daily s = (members, CheckReply.alreadySubmitted) := by
  rw [checkCore, hm]
  dsimp only
  rw [if_pos hlast]

/-- C4: when the caller's member entry already has `lastSubmitted` equal
to the current daily problem id, the check flow replies "already
submitted" and leaves the member list exactly unchanged; consequently a
second run of the check flow with the same daily problem id — after a
normal run that stamped the entry, or after a first run that inserted a
solved entry — changes nothing and does not increment points again. -/
theorem check_already_submitted_idempotent (members : List MemberEntry)
    (uid daily : String) (s s2 : Bool) (m : MemberEntry) :
    (findMember members uid = some m → m.lastSubmitted = some daily →
      checkCore members uid daily s = (members, CheckReply.alreadySubmitted)) ∧
    (findMember members uid = some m → m.lastSubmitted ≠ some daily →
      checkCore (checkCore members uid daily s).1 uid daily s2
        = ((checkCore members uid daily s).1, CheckReply.alreadySubmitted)) ∧
    (findMember members uid = none → s = true →
      checkCore (checkCore members uid daily s).1 uid daily s2
        = ((checkCore members uid daily s).1, CheckReply.alreadySubmitted)) := by
  refine ⟨fun hm hlast => checkCore_already members uid daily s m hm hlast,
    fun hm hlast => ?_, fun hnone hs => ?_⟩
  · have hupd := checkCore_present_find members uid daily s m hm hlast
    exact checkCore_already _ uid daily s2 _ hupd rfl
  · have hins := checkCore_absent members uid daily s hnone
    have hfind : findMember (checkCore members uid daily s).1 uid
        = some { user := some uid, points := if s then 1 else 0,
                 lastSubmitted := if s then some daily else none } := by
      rw [hins, findMember, find?_append_of_none _ _ _ hnone]
      rw [List.find?_cons_of_pos _ (by simp [memberMatches])]
    subst hs
    exact checkCore_already _ uid daily s2 _ hfind rfl

theorem check_already_submitted_idempotent_spot :
    checkCore [{ user := some "u1", points := 2, lastSubmitted := some "1500/A" }]
        "u1" "1500/A" false
      = ([{ user := some "u1", points := 2, lastSubmitted := some "1500/A" }],
         CheckReply.alreadySubmitted)
    ∧ checkCore (checkCore [] "u1" "1500/A" true).1 "u1" "1500/A" false
      = ((checkCore [] "u1" "1500/A" true).1, CheckReply.alreadySubmitted)
    ∧ checkCore
        (checkCore [{ user := some "u1", points := 2, lastSubmitted := some "100/B" }]
          "u1" "1500/A" false).1 "u1" "1500/A" true
      = ((checkCore [{ user := some "u1", points := 2, lastSubmitted := some "100/B" }]
          "u1" "1500/A" false).1, CheckReply.alreadySubmitted) :=
  ⟨(check_already_submitted_idempotent
      [{ user := some "u1", points := 2, lastSubmitted := some "1500/A" }]
      "u1" "1500/A" false false
      { user := some "u1", points := 2, lastSubmitted := some "1500/A" }).1
      (by decide) (by decide),
   (check_already_submitted_idempotent [] "u1" "1500/A" true false
      { user := some "u1", points := 0, lastSubmitted := none }).2.2 (by decide) rfl,
   (check_already_submitted_idempotent
      [{ user := some "u1", points := 2, lastSubmitted := some "100/B" }]
      "u1" "1500/A" false true
      { user := some "u1", points := 2, lastSubmitted := some "100/B" }).2.1
      (by decide) (by decide)⟩

/-- C7: when the judge fetch fails (HTTP error, modelled by `none`) or
the response carries a non-"OK" status, `hasSolvedProblem` returns the
JS `null` (`Except.ok none`) rather than throwing, and the check handler
replies with the error message leaving the member list untouched. -/
theorem check_fetch_failure_no_mutation (members : List MemberEntry)
    (uid daily idx : String) (n : Int) (resp : Option CFStatusResponse)
    (hparse : parseIntJs ((jsSplit daily '/').headD "") = some n)
    (hidx : (jsSplit daily '/')[1]? = some idx) (hne : idx ≠ "")
    (hfail : resp = none ∨ ∀ r, resp = some r → r.status ≠ "OK") :
    hasSolvedProblem daily resp = Except.ok none ∧
    checkHandler members uid daily resp = Except.ok (members, CheckReply.errorChecking) := by
  have h1 : hasSolvedProblem daily resp = Except.ok none := by
    rw [hasSolvedProblem]
    simp only [hparse, hidx]
    rw [if_neg hne]
    rcases hfail with h | h
    · rw [h]
    · cases resp with
      | none => rfl
      | some r =>
        have := h r rfl
        simp [this]
  exact ⟨h1, by rw [checkHandler, h1]⟩

theorem check_fetch_failure_no_mutation_spot :
    hasSolvedProblem "1500/A" none = Except.ok none ∧
    checkHandler [{ user := some "u1", points := 2, lastSubmitted := none }]
        "u1" "1500/A" none
      = Except.ok ([{ user := some "u1", points := 2, lastSubmitted := none }],
                   CheckReply.errorChecking) :=
  check_fetch_failure_no_mutation
    [{ user := some "u1", points := 2, lastSubmitted := none }]
    "u1" "1500/A" "A" 1500 none (by decide) (by decide) (by decide) (Or.inl rfl)

/-- Outcome of the `done|handle|problemId` button handler
(src/unnamed/part_002, lines 336-358).  `signedIn` is the only outcome
that saves a new `UserRecord`. -/
inductive LoginResult
  | invalidUsername
  | fetchFailed
  | signedIn (platformUserId cfUsername guildId : String)
  | mismatch
deriving DecidableEq, Repr

/-- Embeds the login-confirmation button handler: split the encoded
problem id on "/", reject an empty handle, reject when the latest
submission could not be fetched (`lastcfSubmission` returned null), and
create the user record exactly when the fetched submission's contest id
(rendered with `toString`), index and verdict all match. -/
def doneButton (platformUserId guildId cfUsername problemId : String)
    (lastSubmission : Option CFSubmission) : LoginResult :=
  let parts := jsSplit problemId '/'
  let contestId := parts.headD ""
  let problemIndex := parts[1]?
  if cfUsername = "" then LoginResult.invalidUsername
  else
    match lastSubmission with
    | none => LoginResult.fetchFailed
    | some sub =>
      if toString sub.problem.contestId = contestId
          ∧ some sub.problem.index = problemIndex
          ∧ sub.verdict = "COMPILATION_ERROR" then
        LoginResult.signedIn platformUserId cfUsername guildId
      else LoginResult.mismatch

/-- True exactly when the button handler saved a `UserRecord`. -/
def userCreated : LoginResult → Bool
  | LoginResult.signedIn _ _ _ => true
  | _ => false

/-- C5: with a nonempty handle encoded, a `UserRecord` is created if and
only if the fetched latest submission exists and its contest id, index
and verdict match the encoded problem id's components and
"COMPILATION_ERROR"; a fetch failure yields the fetch-failure reply and
any field mismatch the mismatch reply, neither of which creates a
record. -/
theorem login_confirmation_gate (puid gid handle problemId cid idx : String)
    (fetched : Option CFSubmission) (hh : handle ≠ "")
    (hsplit : jsSplit problemId '/' = [cid, idx]) :
    (userCreated (doneButton puid gid handle problemId fetched) = true ↔
      ∃ sub, fetched = some sub ∧ toString sub.problem.contestId = cid ∧
        sub.problem.index = idx ∧ sub.verdict = "COMPILATION_ERROR") ∧
    (fetched = none →
      doneButton puid gid handle problemId fetched = LoginResult.fetchFailed) ∧
    (∀ sub, fetched = some sub →
      ¬(toString sub.problem.contestId = cid ∧ sub.problem.index = idx ∧
        sub.verdict = "COMPILATION_ERROR") →
      doneButton puid gid handle problemId fetched = LoginResult.mismatch) := by
  simp only [doneButton, hsplit, List.headD_cons, List.getElem?_cons_succ,
    List.getElem?_cons_zero]
  rw [if_neg hh]
  refine ⟨?_, ?_, ?_⟩
  · cases fetched with
    | none => simp [userCreated]
    | some sub =>
      dsimp only
      by_cases h : toString sub.problem.contestId = cid
          ∧ some sub.problem.index = some idx
          ∧ sub.verdict = "COMPILATION_ERROR"
      · rw [if_pos h]
        obtain ⟨h1, h2, h3⟩ := h
        simp only [userCreated, true_iff]
        exact ⟨sub, rfl, h1, Option.some_inj.mp h2, h3⟩
      · rw [if_neg h]
        simp only [userCreated]
        refine ⟨fun hft => absurd hft (by decide), ?_⟩
        rintro ⟨sub', hsub', h1, h2, h3⟩
        rw [Option.some_inj.mp hsub'] at h
        exact absurd ⟨h1, by rw [h2], h3⟩ h
  · intro hf
    rw [hf]
  · intro sub hf hmis
    rw [hf]
    dsimp only
    rw [if_neg ?_]
    intro h
    exact hmis ⟨h.1, Option.some_inj.mp h.2.1, h.2.2⟩

theorem login_confirmation_gate_spot :
    userCreated (doneButton "p1" "g1" "abc" "100/A"
      (some { problem := { contestId := 100, index := "A" },
              verdict := "COMPILATION_ERROR" })) = true ∧
    doneButton "p1" "g1" "abc" "100/A"
      (some { problem := { contestId := 100, index := "A" }, verdict := "OK" })
      = LoginResult.mismatch ∧
    doneButton "p1" "g1" "abc" "100/A" none = LoginResult.fetchFailed :=
  ⟨(login_confirmation_gate "p1" "g1" "abc" "100/A" "100" "A"
      (some { problem := { contestId := 100, index := "A" },
              verdict := "COMPILATION_ERROR" }) (by decide) (by decide)).1.mpr
      ⟨_, rfl, by decide, rfl, rfl⟩,
   (login_confirmation_gate "p1" "g1" "abc" "100/A" "100" "A"
      (some { problem := { contestId := 100, index := "A" }, verdict := "OK" })
      (by decide) (by decide)).2.2 _ rfl (by decide),
   (login_confirmation_gate "p1" "g1" "abc" "100/A" "100" "A" none
      (by decide) (by decide)).2.1 rfl⟩

/-- Literal-prefix matcher over character lists: returns the remaining
characters when the first argument is an initial segment of the
second. -/
def stripPrefixChars : List Char → List Char → Option (List Char)
  | [], cs => some cs
  | _ :: _, [] => none
  | p :: ps, c :: cs => if c = p then stripPrefixChars ps cs else none

/-- A character matched by the regex class `[A-Z0-9]`. -/
def upAlnum (c : Char) : Bool :=
  c.isDigit || ('A' ≤ c && c ≤ 'Z')

/-- After one of the two literal path segments matched, consume
`(\d+)\/([A-Z0-9]+)`: a nonempty maximal digit run, a slash and a
nonempty maximal `[A-Z0-9]` run (greedy matching never backtracks here
because a digit run cannot end at a slash). -/
def matchTail (cs : List Char) : Option (String × String) :=
  let ds := cs.takeWhile Char.isDigit
  if ds.isEmpty then none
  else
    match cs.drop ds.length with
    | '/' :: rest =>
      let xs := rest.takeWhile upAlnum
      if xs.isEmpty then none else some (String.mk ds, String.mk xs)
    | _ => none

/-- Attempt of the regex
`\/(?:contest|problemset)\/problem\/(\d+)\/([A-Z0-9]+)` at one start
position: the two alternatives cannot both match at the same position,
so they are tried in order. -/
def matchHere (cs : List Char) : Option (String × String) :=
  match stripPrefixChars "/contest/problem/".data cs with
  | some rest => matchTail rest
  | none =>
    match stripPrefixChars "/problemset/problem/".data cs with
    | some rest => matchTail rest
    | none => none

/-- Leftmost-match search of the unanchored regex, as
`problemUrl.match(regex)` performs it. -/
def cfUrlMatchAux : List Char → Option (String × String)
  | [] => none
  | c :: cs =>
    match matchHere (c :: cs) with
    | some r => some r
    | none => cfUrlMatchAux cs

/-- Embeds the URL validation of the `setdailyproblem` handler
(src/unnamed/part_002, lines 477-483): run the regex
`\/(?:contest|problemset)\/problem\/(\d+)\/([A-Z0-9]+)` against the
given URL and return the two capture groups (`contestId`, `index`) of
the first match. -/
def cfUrlMatch (url : String) : Option (String × String) :=
  cfUrlMatchAux url.data

/-- The guild record (`serverSchema.ts`): the fields of one `Server`
document. -/
structure ServerRec where
  daily : Option String
  members : List MemberEntry
  guildId : String
  channelId : Option String
  announcementChannelId : Option String
  messageId : Option String
deriving DecidableEq, Repr

/-- Reply outcomes of the `setdailyproblem` handler up to the store
write (warnings about unset channels and the announcement attempt change
no record fields and are omitted). -/
inductive SDPOutcome
  | noPermission
  | missingUrl
  | badFormat
  | invalidProblem
  | saved (server : ServerRec)
deriving DecidableEq, Repr

/-- Embeds the `setdailyproblem` handler (src/unnamed/part_002, lines
468-512): permission gate, missing/empty URL gate, regex validation,
live problem-set validation (the network call is the `validate` oracle),
then create the guild record or set only its `daily` field. -/
def setDailyProblem (hasPerm : Bool) (problemUrl : Option String)
    (validate : String → String → Bool) (server : Option ServerRec)
    (guildId : String) : SDPOutcome :=
  if hasPerm = false then SDPOutcome.noPermission
  else
    match problemUrl with
    | none => SDPOutcome.missingUrl
    | some url =>
      if url = "" then SDPOutcome.missingUrl
      else
        match cfUrlMatch url with
        | none => SDPOutcome.badFormat
        | some (contestId, index) =>
          if validate contestId index = false then SDPOutcome.invalidProblem
          else
            match server with
            | none =>
              SDPOutcome.saved
                { daily := some (contestId ++ "/" ++ index), members := [],
                  guildId := guildId, channelId := none,
                  announcementChannelId := none, messageId := none }
            | some s => SDPOutcome.saved { s with daily := some (contestId ++ "/" ++ index) }

/-- C1: the regex of `setdailyproblem` requires the literal path segment
`/contest/problem/` or `/problemset/problem/`, so the contest-style URL
`https://codeforces.com/contest/1500/problem/A` — the very shape given
as the example in the bot's registered command description — does NOT
match and is rejected with the invalid-format reply before any guild
record is touched, contrary to the claim; `https://example.com/foo` is
rejected as the claim says, and only the problemset-style URL
`https://codeforces.com/problemset/problem/1500/A` extracts
`contestId = "1500"`, `index = "A"`. -/
theorem setdaily_contest_url_rejected (validate : String → String → Bool)
    (s : ServerRec) (gid : String) :
    cfUrlMatch "https://codeforces.com/contest/1500/problem/A" = none
    ∧ setDailyProblem true (some "https://codeforces.com/contest/1500/problem/A")
        validate (some s) gid = SDPOutcome.badFormat
    ∧ setDailyProblem true (some "https://example.com/foo") validate (some s) gid
        = SDPOutcome.badFormat
    ∧ cfUrlMatch "https://codeforces.com/problemset/problem/1500/A"
        = some ("1500", "A") :=
  ⟨rfl, rfl, rfl, rfl⟩

/-- C8: a successful `setdailyproblem` invocation on an existing guild
record stores `contestId ++ "/" ++ index` in the `daily` field and
changes nothing else: the member list (hence every entry's points and
lastSubmitted), the leaderboard and announcement channel ids, the last
leaderboard message id and the guild id are all unchanged. -/
theorem setdaily_only_daily_changes (s : ServerRec) (gid url cid idx : String)
    (validate : String → String → Bool)
    (hmatch : cfUrlMatch url = some (cid, idx))
    (hvalid : validate cid idx = true) :
    setDailyProblem true (some url) validate (some s) gid
      = SDPOutcome.saved { s with daily := some (cid ++ "/" ++ idx) }
    ∧ ({ s with daily := some (cid ++ "/" ++ idx) } : ServerRec).members = s.members
    ∧ ({ s with daily := some (cid ++ "/" ++ idx) } : ServerRec).channelId = s.channelId
    ∧ ({ s with daily := some (cid ++ "/" ++ idx) } : ServerRec).announcementChannelId
        = s.announcementChannelId
    ∧ ({ s with daily := some (cid ++ "/" ++ idx) } : ServerRec).messageId = s.messageId
    ∧ ({ s with daily := some (cid ++ "/" ++ idx) } : ServerRec).guildId = s.guildId := by
  have hurl : url ≠ "" := by
    intro h
    rw [h] at hmatch
    exact Option.noConfusion hmatch
  refine ⟨?_, rfl, rfl, rfl, rfl, rfl⟩
  rw [setDailyProblem, if_neg (by decide)]
  dsimp only
  rw [if_neg hurl, hmatch]
  dsimp only
  rw [hvalid]
  rw [if_neg (by decide)]

theorem setdaily_only_daily_changes_spot :
    setDailyProblem true (some "https://codeforces.com/problemset/problem/1500/A")
      (fun _ _ => true)
      (some { daily := some "100/B",
              members := [{ user := some "u1", points := 7, lastSubmitted := some "100/B" }],
              guildId := "g1", channelId := some "c1",
              announcementChannelId := some "c2", messageId := some "m1" }) "g1"
      = SDPOutcome.saved
          { daily := some "1500/A",
            members := [{ user := some "u1", points := 7, lastSubmitted := some "100/B" }],
            guildId := "g1", channelId := some "c1",
            announcementChannelId := some "c2", messageId := some "m1" } :=
  (setdaily_only_daily_changes
    { daily := some "100/B",
      members := [{ user := some "u1", points := 7, lastSubmitted := some "100/B" }],
      guildId := "g1", channelId := some "c1",
      announcementChannelId := some "c2", messageId := some "m1" }
    "g1" "https://codeforces.com/problemset/problem/1500/A" "1500" "A"
    (fun _ _ => true) (by decide) rfl).1
